import Mathlib

/-!
Verification of the agentic-factory workflow repository.

The file shallowly embeds the Python sources:
* `challenge-4/agent-workflow/app/agents.py` (work-order extraction, A2A
  executors, workflow conditions, A2A agent discovery, workflow assembly);
* `challenge-3/agents/maintenance_scheduler_agent.py` (chat-history saving);
* `challenge-3/agents/services/cosmos_db_service.py` (work-order store);
and models the workflow builder/runtime of the agent framework from the
specification, since that framework is not part of the repository sources.

Strings are mostly worked with as `List Char`; Python exceptions are
embedded as `Except String`; external effects (Cosmos DB, hosted model
calls, HTTP) are passed in as explicit function parameters.
-/

namespace PyStr

/-- Python `s.lower()` on a character list (ASCII-faithful). -/
def lowerChars (s : List Char) : List Char := s.map Char.toLower

/-- Does `l` start with `pat`?  Backs the Python `in` operator model. -/
def startsWithList : List Char → List Char → Bool
  | [], _ => true
  | _ :: _, [] => false
  | p :: ps, c :: cs => p == c && startsWithList ps cs

/-- Python `pat in s` (substring containment) on character lists. -/
def containsList (pat : List Char) : List Char → Bool
  | [] => pat.isEmpty
  | c :: cs => startsWithList pat (c :: cs) || containsList pat cs

/-- Python truthiness of an optional string: `None` and `""` are falsy. -/
def pyTruthy? : Option String → Option String
  | none => none
  | some t => if t = "" then none else some t

end PyStr

namespace AgentsPy

/-! ### `extract_work_order_id` (agents.py lines 12-15)

`re.search(r'wo-\d{4}-[a-f0-9]+', text, re.IGNORECASE)`: leftmost match,
greedy hex tail, case-insensitive. -/

/-- `\d` for ASCII digits. -/
def isDigitC (c : Char) : Bool := '0' ≤ c && c ≤ '9'

/-- `[a-f0-9]` under `re.IGNORECASE`: digits, `a`-`f`, `A`-`F`. -/
def isHexC (c : Char) : Bool :=
  isDigitC c || ('a' ≤ c && c ≤ 'f') || ('A' ≤ c && c ≤ 'F')

/-- Literal `w` under `re.IGNORECASE`. -/
def isWC (c : Char) : Bool := c == 'w' || c == 'W'

/-- Literal `o` under `re.IGNORECASE`. -/
def isOC (c : Char) : Bool := c == 'o' || c == 'O'

/-- The 8-character fixed header `wo-\d{4}-` test. -/
def woHeaderOk (c0 c1 c2 c3 c4 c5 c6 c7 : Char) : Bool :=
  isWC c0 && isOC c1 && c2 == '-' && isDigitC c3 && isDigitC c4 &&
    isDigitC c5 && isDigitC c6 && c7 == '-'

/-- `s` matches the whole pattern `wo-\d{4}-[a-f0-9]+` (case-insensitive). -/
def matchesWO (s : List Char) : Bool :=
  match s with
  | c0 :: c1 :: c2 :: c3 :: c4 :: c5 :: c6 :: c7 :: rest =>
      woHeaderOk c0 c1 c2 c3 c4 c5 c6 c7 && !rest.isEmpty && rest.all isHexC
  | _ => false

/-- Greedy match of the pattern at the start of `l` (`none` if no match
starts at position 0). -/
def matchAt (l : List Char) : Option (List Char) :=
  match l with
  | c0 :: c1 :: c2 :: c3 :: c4 :: c5 :: c6 :: c7 :: rest =>
      if woHeaderOk c0 c1 c2 c3 c4 c5 c6 c7 then
        match rest.takeWhile isHexC with
        | [] => none
        | h :: hs => some ([c0, c1, c2, c3, c4, c5, c6, c7] ++ (h :: hs))
      else none
  | _ => none

/-- `extract_work_order_id` (agents.py lines 12-15): leftmost, greedy
occurrence of `wo-\d{4}-[a-f0-9]+`, or `none`. -/
def extract_work_order_id : List Char → Option (List Char)
  | [] => none
  | c :: cs =>
      match matchAt (c :: cs) with
      | some m => some m
      | none => extract_work_order_id cs

/-! ### `extract_text_from_message` (agents.py lines 340-364) -/

/-- Model of the duck-typed `msg.params` value (priority 4 of
`extract_text_from_message`): either a Python dict or some other object
with an optional `text` attribute; `strRepr` carries `str(params)`. -/
inductive PyParams
  | pdict (entries : List (String × String)) (strRepr : String)
  | pobj (text : Option String) (strRepr : String)

/-- Python truthiness of a `params` value: a dict is falsy when empty;
plain objects are truthy. -/
def PyParams.truthy : PyParams → Bool
  | .pdict entries _ => !entries.isEmpty
  | .pobj _ _ => true

/-- The priority-4 body: `params.get('text','') or str(params)` for dicts,
`params.text` when the attribute exists, else `str(params)`. -/
def PyParams.extractText : PyParams → String
  | .pdict entries strRepr =>
      let t := ((entries.lookup "text").getD "")
      if t = "" then strRepr else t
  | .pobj (some t) _ => t
  | .pobj none strRepr => strRepr

/-- Model of the heterogeneous message objects fed to
`extract_text_from_message`.  An `Option (Option String)` field models
`hasattr` (outer) plus the inner `text` attribute; `strRepr` is `str(msg)`. -/
structure WfMsg where
  /-- `msg.agent_run_response`, with its optional `.text` attribute. -/
  agent_run_response : Option (Option String) := none
  /-- `msg.text` attribute (may hold the empty string, which is falsy). -/
  text : Option String := none
  /-- `msg.response`, with its optional `.text` attribute. -/
  response : Option (Option String) := none
  /-- `msg.params` attribute. -/
  params : Option PyParams := none
  /-- `str(msg)` fallback representation. -/
  strRepr : String := ""

/-- Priorities 4-5 of `extract_text_from_message`:
`elif getattr(msg, 'params', None): ... else: str(msg)`. -/
def etfm4 (msg : WfMsg) : String :=
  match msg.params with
  | some p => if p.truthy then p.extractText else msg.strRepr
  | none => msg.strRepr

/-- Priority 3: `elif getattr(msg,'response',None) and
getattr(msg.response,'text',None): msg.response.text`. -/
def etfm3 (msg : WfMsg) : String :=
  match msg.response with
  | some rt =>
      match PyStr.pyTruthy? rt with
      | some t => t
      | none => etfm4 msg
  | none => etfm4 msg

/-- Priority 2: `elif getattr(msg, 'text', None): msg.text`. -/
def etfm2 (msg : WfMsg) : String :=
  match PyStr.pyTruthy? msg.text with
  | some t => t
  | none => etfm3 msg

/-- `extract_text_from_message` (agents.py lines 340-364).  Priority 1:
`hasattr(msg,'agent_run_response') and hasattr(msg.agent_run_response,'text')`. -/
def extract_text_from_message (msg : WfMsg) : String :=
  match msg.agent_run_response with
  | some (some t) => t
  | _ => etfm2 msg

/-! ### `diagnosis_condition` (agents.py lines 379-390) -/

/-- The hardcoded keyword list of `diagnosis_condition`. -/
def keywords : List String := ["critical", "warning", "high", "alert"]

/-- `diagnosis_condition` (agents.py lines 379-390):
`any(keyword in text.lower() for keyword in keywords)` over the text
extracted by `extract_text_from_message`. -/
def diagnosis_condition (msg : WfMsg) : Bool :=
  let text := extract_text_from_message msg
  keywords.any (fun kw => PyStr.containsList kw.data (PyStr.lowerChars text.data))

/-- A workflow message carrying only a truthy `text` attribute. -/
def mkTextMsg (t : String) : WfMsg := { text := some t }

/-! ### A2A server executors (agents.py lines 74-158 and 192-282)

Both executors have the same shape: extract the last text part of the
inbound message, check the environment, resolve a work-order id, run the
agent/Cosmos pipeline inside `try`, and enqueue exactly one response
message built from a fresh UUID.  The Cosmos/model side effects (lines
108-136 resp. 222-260) depend only on the resolved work-order id and
external state, so they are abstracted as a `pipeline` parameter returning
either the success response text or the raised exception's `str`. -/

/-- An A2A `Part(root=...)`: `rootText` is `p.root.text` when the wrapped
part has a `text` attribute (`TextPart`), `none` otherwise. -/
structure A2APart where
  rootText : Option String

/-- An A2A `Message` (both the inbound request and the enqueued response). -/
structure A2AMessage where
  messageId : String
  role : String
  parts : List A2APart

/-- Input-text extraction shared by both executors (agents.py lines 85-96
and 203-210): iterate `reversed(message.parts)` and take the first part
whose `root` has a `text` attribute; default `""`. -/
def extractLastPartText (message : Option A2AMessage) : String :=
  match message with
  | some m => ((m.parts.reverse.findSome? A2APart.rootText).getD "")
  | none => ""

/-- Work-order id resolution shared by both executors (lines 111-114 and
225-228): `extract_work_order_id(input_text) if input_text else None`,
then `if not work_order_id: work_order_id = "wo-2024-468"`. -/
def resolveWorkOrderId (input_text : String) : String :=
  let wid := if input_text ≠ "" then extract_work_order_id input_text.data else none
  match wid with
  | some w => if w.isEmpty then "wo-2024-468" else String.mk w
  | none => "wo-2024-468"

/-- The four environment variables both executors require (lines 99-105
and 213-219), each `None` or a string, with Python truthiness. -/
structure ExecEnv where
  cosmos_endpoint : Option String
  cosmos_key : Option String
  database_name : Option String
  project_endpoint : Option String

/-- `all([cosmos_endpoint, cosmos_key, database_name, project_endpoint])`. -/
def ExecEnv.allSet (e : ExecEnv) : Bool :=
  (PyStr.pyTruthy? e.cosmos_endpoint).isSome && (PyStr.pyTruthy? e.cosmos_key).isSome &&
    (PyStr.pyTruthy? e.database_name).isSome && (PyStr.pyTruthy? e.project_endpoint).isSome

/-- Error text of the maintenance executor's `except` clause (line 140). -/
def maintenanceErrorText (e : String) : String :=
  "Error processing maintenance schedule request: " ++ e

/-- Error text of the parts executor's `except` clause (line 264). -/
def partsErrorText (e : String) : String :=
  "Error processing parts order request: " ++ e

/-- `response_text` computed by `MaintenanceSchedulerExecutor.execute`
(lines 81-140): the `try` body either reports missing environment
variables, or runs the pipeline on the resolved work-order id; any raised
exception is converted by the `except Exception` clause. -/
def maintenanceRespText (env : ExecEnv) (message : Option A2AMessage)
    (pipeline : String → Except String String) : String :=
  let input_text := extractLastPartText message
  let body : Except String String :=
    if !env.allSet then
      .ok "Error: Missing required environment variables for MaintenanceSchedulerAgent"
    else
      pipeline (resolveWorkOrderId input_text)
  match body with
  | .ok t => t
  | .error e => maintenanceErrorText e

/-- `response_text` computed by `PartsOrderingExecutor.execute`
(lines 199-264), same shape as the maintenance executor. -/
def partsRespText (env : ExecEnv) (message : Option A2AMessage)
    (pipeline : String → Except String String) : String :=
  let input_text := extractLastPartText message
  let body : Except String String :=
    if !env.allSet then
      .ok "Error: Missing required environment variables for PartsOrderingAgent"
    else
      pipeline (resolveWorkOrderId input_text)
  match body with
  | .ok t => t
  | .error e => partsErrorText e

/-- `MaintenanceSchedulerExecutor.execute` (lines 77-149): the returned
`Except` is the executor's own exception behaviour (it never raises), the
list is what gets enqueued on `event_queue`; `freshId` is the
`str(uuid.uuid4())` generated for this invocation (line 143-148). -/
def maintenanceExecute (env : ExecEnv) (message : Option A2AMessage)
    (pipeline : String → Except String String) (freshId : String) :
    Except String (List A2AMessage) :=
  .ok [⟨freshId, "agent", [⟨some (maintenanceRespText env message pipeline)⟩]⟩]

/-- `PartsOrderingExecutor.execute` (lines 195-273). -/
def partsExecute (env : ExecEnv) (message : Option A2AMessage)
    (pipeline : String → Except String String) (freshId : String) :
    Except String (List A2AMessage) :=
  .ok [⟨freshId, "agent", [⟨some (partsRespText env message pipeline)⟩]⟩]

/-! ### `get_a2a_agent` (agents.py lines 295-337) -/

/-- The fetched agent card (the fields `get_a2a_agent` consumes). -/
structure AgentCard where
  name : String
  description : String
  url : String

/-- The constructed `A2AAgent` (the fields the workflow consumes). -/
structure A2AAgentModel where
  name : Option String
  description : Option String
  card : Option AgentCard
  url : String

/-- State of the installed `agent-framework-a2a` package as observed by
`get_a2a_agent`: absent, shipping `A2ACardResolver`, or an older/newer
package without the resolver whose `A2AAgent` constructor accepts the
url-only / name-description-url keyword shapes. -/
inductive A2APkg
  | missing
  | hasResolver
  | noResolver (acceptsUrlOnly : Bool) (acceptsNamed : Bool)

/-- `get_a2a_agent` (lines 295-337).  `fetch` models the HTTP GET the card
resolver performs, keyed by the full request URL; exceptions it raises
propagate (the function has no handler for them). -/
def get_a2a_agent (pkg : A2APkg) (fetch : String → Except String AgentCard)
    (server_url : String) : Except String A2AAgentModel :=
  match pkg with
  | .missing =>
      .error "A2A support requires the agent-framework-a2a package. If you're using uv, run uv sync in this directory."
  | .hasResolver =>
      match fetch (server_url ++ ".well-known/agent-card.json") with
      | .error e => .error e
      | .ok card =>
          .ok ⟨some card.name, some card.description, some card, server_url⟩
  | .noResolver acceptsUrlOnly acceptsNamed =>
      if acceptsUrlOnly then
        .ok ⟨none, none, none, server_url⟩
      else if acceptsNamed then
        .ok ⟨some "RepairPlannerAgent", some "A2A agent", none, server_url⟩
      else
        .error "Unable to construct A2A agent from agent-framework-a2a. Please ensure the package version matches the workflow sample."

end AgentsPy

namespace WF

/-!
Modelled from the spec: the `WorkflowBuilder` / workflow runtime of the
agent framework is imported by `agents.py` but is not part of this
repository's sources, so it is modelled from spec sections 4.1 and 4.4: a
builder collects named executors, ordered edges with optional conditions
over the producer's output text, and a start node; `build()` validates
referential integrity; the runtime drives a work queue seeded with the
start node, records each invocation's output in order, and enqueues the
targets of satisfied outgoing edges in edge-registration order.
-/

/-- An edge: source, target, optional condition over the producer's
output text (spec section 3, `Edge`). -/
structure Edge where
  src : String
  tgt : String
  cond : Option (String → Bool)

/-- Builder state: registered executors (name, invoke function), edges in
registration order, and the start designations (spec section 4.1). -/
structure Builder where
  executors : List (String × (String → String))
  edges : List Edge
  starts : List String

/-- The empty builder. -/
def Builder.empty : Builder := ⟨[], [], []⟩

/-- `register(id, factory)` (spec section 4.1). -/
def Builder.register (b : Builder) (name : String) (f : String → String) : Builder :=
  { b with executors := b.executors ++ [(name, f)] }

/-- `addEdge(fromId, toId, condition?)` (spec section 4.1). -/
def Builder.addEdge (b : Builder) (src tgt : String) (cond : Option (String → Bool)) : Builder :=
  { b with edges := b.edges ++ [⟨src, tgt, cond⟩] }

/-- `setStart(id)` (spec section 4.1). -/
def Builder.setStart (b : Builder) (name : String) : Builder :=
  { b with starts := b.starts ++ [name] }

/-- `GraphConstructionError` (spec section 7): dangling edge reference,
missing or duplicate start node. -/
inductive GraphError
  | missingNodes (ids : List String)
  | noStart
  | duplicateStart
deriving DecidableEq

/-- A validated, immutable graph (spec section 3, `Graph`). -/
structure Graph where
  executors : List (String × (String → String))
  edges : List Edge
  start : String

/-- The registered node names of a builder. -/
def Builder.names (b : Builder) : List String := b.executors.map Prod.fst

/-- Edge endpoints that refer to no registered node. -/
def Builder.danglingIds (b : Builder) : List String :=
  (b.edges.map Edge.src ++ b.edges.map Edge.tgt).filter (fun n => !b.names.contains n)

/-- `build()` (spec section 4.1): validates referential integrity and the
start designation, else fails with a `GraphError`; performs no I/O and
calls no executor. -/
def Builder.build (b : Builder) : Except GraphError Graph :=
  if b.danglingIds ≠ [] then .error (.missingNodes b.danglingIds)
  else
    match b.starts with
    | [] => .error .noStart
    | [s] =>
        if b.names.contains s then .ok ⟨b.executors, b.edges, s⟩
        else .error (.missingNodes [s])
    | _ :: _ :: _ => .error .duplicateStart

/-- The error component of `build`, used to state that validation depends
only on names, edges and starts (never on executor behaviour). -/
def Builder.buildError (b : Builder) : Option GraphError :=
  match b.build with
  | .error e => some e
  | .ok _ => none

/-- The (source, target) id pairs of a builder's edges, in registration
order — all that `build` validation may read of the edges. -/
def Builder.edgeIds (b : Builder) : List (String × String) :=
  b.edges.map (fun e => (e.src, e.tgt))

/-- An edge with no condition is always satisfied (spec section 4.4). -/
def condHolds (c : Option (String → Bool)) (t : String) : Bool :=
  match c with
  | none => true
  | some f => f t

/-- Invoke a node by name.  On a graph produced by `build` every scheduled
node is registered; the identity default is unreachable there. -/
def Graph.invoke (g : Graph) (n : String) (m : String) : String :=
  match g.executors.lookup n with
  | some f => f m
  | none => m

/-- One scheduler loop (spec section 4.4): dequeue `(node, message)`,
invoke, record the output, enqueue the targets of satisfied outgoing edges
in edge-registration order; stop when the queue is empty.  `fuel` bounds
the loop for structural termination. -/
def runLoop : Nat → Graph → List (String × String) → List (String × String) →
    List (String × String)
  | 0, _, _, outputs => outputs
  | _ + 1, _, [], outputs => outputs
  | fuel + 1, g, (n, m) :: rest, outputs =>
      let result := g.invoke n m
      let newly := g.edges.filterMap
        (fun e => if e.src == n && condHolds e.cond result then some (e.tgt, result) else none)
      runLoop fuel g (rest ++ newly) (outputs ++ [(n, result)])

/-- Run a graph from its start node on an initial message. -/
def Graph.run (g : Graph) (m : String) (fuel : Nat) : List (String × String) :=
  runLoop fuel g [(g.start, m)] []

/-- The sequence of node invocations (dequeue order of the work queue),
computed by its own recursion over the same scheduler state. -/
def invocationLoop : Nat → Graph → List (String × String) → List String
  | 0, _, _ => []
  | _ + 1, _, [] => []
  | fuel + 1, g, (n, m) :: rest =>
      let result := g.invoke n m
      let newly := g.edges.filterMap
        (fun e => if e.src == n && condHolds e.cond result then some (e.tgt, result) else none)
      n :: invocationLoop fuel g (rest ++ newly)

/-- The order in which the run invokes nodes. -/
def Graph.invocationOrder (g : Graph) (m : String) (fuel : Nat) : List String :=
  invocationLoop fuel g [(g.start, m)]

/-- An output is terminal when no outgoing edge of its node is satisfied
by it (spec section 4.4 step 4). -/
def Graph.isTerminalOutput (g : Graph) (p : String × String) : Bool :=
  !g.edges.any (fun e => e.src == p.1 && condHolds e.cond p.2)

/-- The terminal outputs of a run, in the order the run returned them. -/
def Graph.terminalOutputs (g : Graph) (outs : List (String × String)) :
    List (String × String) :=
  outs.filter g.isTerminalOutput

/-- Registration index of the first edge targeting `n` — the position of a
node in "edge-registration order" (spec section 2). -/
def Graph.firstEdgeIdxTargeting (g : Graph) (n : String) : Option Nat :=
  g.edges.findIdx? (fun e => e.tgt == n)

/-- Concrete graph refuting the coincidence of first-invocation order and
edge-registration order of terminal outputs: edges are registered as
`A→C, S→A, S→B`, all unconditional, start `S`. -/
def cexGraph : Graph :=
  ⟨[("S", fun _ => "s"), ("A", fun _ => "a"), ("B", fun _ => "b"), ("C", fun _ => "c")],
   [⟨"A", "C", none⟩, ⟨"S", "A", none⟩, ⟨"S", "B", none⟩],
   "S"⟩

end WF

namespace AgentsPy

/-! ### `run_factory_workflow` (agents.py lines 395-451), wired to the
spec-modelled builder/runtime. -/

/-- `RequestProcessor.process` (lines 369-376): formats the initial prompt
from the input dict's `machine_id` and `telemetry` (here `telemetry` is
the `str()` rendering of the telemetry list interpolated by the f-string);
the workflow input dict itself carries no other used information. -/
def requestProcessorInvoke (machine_id telemetry : String) : String → String :=
  fun _ => "Classify the following anomalies for machine " ++ machine_id ++ ": " ++ telemetry

/-- The edge condition as the runtime evaluates it: the framework hands
`diagnosis_condition` the producer's response object, whose extracted text
is the producer's output text. -/
def diagnosisCondText (t : String) : Bool :=
  diagnosis_condition { agent_run_response := some (some t) }

/-- `_require_env` (lines 285-292): returns the value or raises. -/
def require_env (name : String) (value : Option String) : Except String String :=
  match PyStr.pyTruthy? value with
  | some v => .ok v
  | none =>
      .error ("Missing required environment variable: " ++ name ++
        ". This workflow expects Anomaly/Fault agents to be hosted in Foundry Agent Service and referenced by ID.")

/-- `run_factory_workflow` (lines 395-451): requires the project endpoint,
optionally discovers the repair-planner A2A agent (before any graph
build), registers executors and edges exactly as the source does, builds,
and runs.  `anomalyFn`, `faultFn`, `repairFn` are the opaque hosted-agent
behaviours; build errors surface as raised framework exceptions. -/
def run_factory_workflow (env_project : Option String) (repair_planner_url : Option String)
    (pkg : A2APkg) (fetch : String → Except String AgentCard)
    (anomalyFn faultFn repairFn : String → String)
    (machine_id telemetry : String) (fuel : Nat) :
    Except String (List (String × String)) := do
  let _ ← require_env "AZURE_AI_PROJECT_ENDPOINT" env_project
  let b := WF.Builder.empty
  let b := b.register "RequestProcessor" (requestProcessorInvoke machine_id telemetry)
  let b := b.register "AnomalyAgent" anomalyFn
  let b := b.register "FaultAgent" faultFn
  let b ← match repair_planner_url with
    | some u => do
        let _agent ← get_a2a_agent pkg fetch u
        pure (b.register "RepairPlannerAgent" repairFn)
    | none => pure b
  let b := b.setStart "RequestProcessor"
  let b := b.addEdge "RequestProcessor" "AnomalyAgent" none
  let b := b.addEdge "AnomalyAgent" "FaultAgent" (some diagnosisCondText)
  let b := match repair_planner_url with
    | some _ => b.addEdge "FaultAgent" "RepairPlannerAgent" none
    | none => b
  match b.build with
  | .error _ => .error "GraphConstructionError"
  | .ok g => .ok (g.run "workflow-input" fuel)

end AgentsPy

namespace MaintPy

/-! ### `MaintenanceSchedulerAgent._save_interaction_history`
(maintenance_scheduler_agent.py lines 123-141) -/

/-- One chat-history entry `{"role": ..., "content": ...}`. -/
structure ChatMsg where
  role : String
  content : String
deriving DecidableEq

/-- Python `l[-n:]`: the last `min n (length l)` elements. -/
def pyLastN (n : Nat) (l : List ChatMsg) : List ChatMsg := l.drop (l.length - n)

/-- The message list `_save_interaction_history` persists (lines 127-139):
append the user prompt and assistant response to the existing history,
then keep only the last 10 messages. -/
def save_interaction_history (existing : List ChatMsg)
    (user_prompt assistant_response : String) : List ChatMsg :=
  let messages := existing ++ [⟨"user", user_prompt⟩, ⟨"assistant", assistant_response⟩]
  pyLastN 10 messages

end MaintPy

namespace CosmosPy

/-! ### `CosmosDbService` work orders (cosmos_db_service.py lines 192-261)

The `WorkOrders` container is modelled as a list of stored items; Cosmos
`delete_item` / `upsert_item` address an item by `(id, partition key)`
where the partition key is the item's `status`.  The `createdAt`
ISO-string round trip (`_parse_datetime` then `isoformat()`) is treated as
value-preserving. -/

/-- A `requiredParts` entry as stored in Cosmos (camelCase JSON fields). -/
structure RequiredPartItem where
  partNumber : String
  partName : String
  quantity : Nat
  isAvailable : Bool
deriving DecidableEq

/-- A stored `WorkOrders` item (the JSON fields the service reads/writes). -/
structure WorkOrderItem where
  id : String
  machineId : String
  faultType : String
  priority : String
  assignedTechnician : String
  requiredParts : List RequiredPartItem
  estimatedDuration : Nat
  createdAt : Option String
  status : String
deriving DecidableEq

/-- The `RequiredPart` dataclass (cosmos_db_service.py lines 21-28). -/
structure RequiredPart where
  part_number : String
  part_name : String
  quantity : Nat
  is_available : Bool
deriving DecidableEq

/-- The `WorkOrder` dataclass (cosmos_db_service.py lines 31-43). -/
structure WorkOrder where
  id : String
  machine_id : String
  fault_type : String
  priority : String
  assigned_technician : String
  required_parts : List RequiredPart
  estimated_duration : Nat
  created_at : Option String
  status : String
deriving DecidableEq

/-- Field-for-field read of a stored part (lines 216-223). -/
def toRequiredPart (p : RequiredPartItem) : RequiredPart :=
  ⟨p.partNumber, p.partName, p.quantity, p.isAvailable⟩

/-- Field-for-field read of a stored work order (lines 209-228). -/
def toWorkOrder (item : WorkOrderItem) : WorkOrder :=
  ⟨item.id, item.machineId, item.faultType, item.priority, item.assignedTechnician,
   item.requiredParts.map toRequiredPart, item.estimatedDuration, item.createdAt, item.status⟩

/-- The item `update_work_order_status` writes back (lines 241-259): every
field copied from the previously read work order, `status` replaced. -/
def itemOfWorkOrder (wo : WorkOrder) (status : String) : WorkOrderItem :=
  ⟨wo.id, wo.machine_id, wo.fault_type, wo.priority, wo.assigned_technician,
   wo.required_parts.map (fun p => ⟨p.part_number, p.part_name, p.quantity, p.is_available⟩),
   wo.estimated_duration, wo.created_at, status⟩

/-- The modelled `WorkOrders` container. -/
abbrev Store := List WorkOrderItem

/-- `get_work_order` (lines 192-230): first stored item whose `id`
matches, raising when none does. -/
def get_work_order (store : Store) (work_order_id : String) : Except String WorkOrder :=
  match store.find? (fun it => it.id == work_order_id) with
  | some item => .ok (toWorkOrder item)
  | none => .error ("Work order " ++ work_order_id ++ " not found")

/-- Cosmos `delete_item(item=id, partition_key=pk)`: removes the (unique)
item addressed by id and partition key. -/
def deleteItem (store : Store) (work_order_id pk : String) : Store :=
  store.eraseP (fun it => it.id == work_order_id && it.status == pk)

/-- Cosmos `upsert_item`: replaces the item with the same `(id, partition
key)` when present, else inserts. -/
def upsertItem (store : Store) (it : WorkOrderItem) : Store :=
  if store.any (fun x => x.id == it.id && x.status == it.status) then
    store.map (fun x => if x.id == it.id && x.status == it.status then it else x)
  else store ++ [it]

/-- `update_work_order_status` (lines 232-261): re-read the work order,
delete the old item under its old status partition, and upsert an item
rebuilt field-for-field with the new status. -/
def update_work_order_status (store : Store) (work_order_id status : String) :
    Except String Store := do
  let wo ← get_work_order store work_order_id
  let old_status := wo.status
  let store₁ := deleteItem store work_order_id old_status
  pure (upsertItem store₁ (itemOfWorkOrder wo status))

/-- A concrete stored work order used to witness the frame property. -/
def sampleItem : WorkOrderItem :=
  ⟨"wo-2024-468", "machine-007", "overheat", "high", "alex",
   [⟨"p-100", "drive belt", 2, false⟩], 45, some "2024-05-01T00:00:00", "Created"⟩

end CosmosPy

/-!
## Theorems

Helper lemmas first, then one theorem per claim (with witnesses for
theorems that carry hypotheses).
-/

theorem startsWithList_iff (pat l : List Char) :
    PyStr.startsWithList pat l = true ↔ pat <+: l := by
  induction pat generalizing l with
  | nil =>
      constructor
      · intro _; exact List.nil_prefix
      · intro _; rfl
  | cons p ps ih =>
      cases l with
      | nil => simp [PyStr.startsWithList]
      | cons c cs => simp [PyStr.startsWithList, List.cons_prefix_cons, ih]

theorem containsList_iff (pat l : List Char) :
    PyStr.containsList pat l = true ↔ pat <:+: l := by
  induction l with
  | nil => cases pat <;> simp [PyStr.containsList, List.infix_nil]
  | cons c cs ih =>
      simp [PyStr.containsList, List.infix_cons_iff, startsWithList_iff, ih]

theorem extract_text_mkTextMsg (t : String) :
    AgentsPy.extract_text_from_message (AgentsPy.mkTextMsg t) =
      if t = "" then "" else t := by
  by_cases ht : t = "" <;>
    simp [AgentsPy.extract_text_from_message, AgentsPy.mkTextMsg, AgentsPy.etfm2,
      AgentsPy.etfm3, AgentsPy.etfm4, PyStr.pyTruthy?, ht]

theorem diagnosis_condition_iff (msg : AgentsPy.WfMsg) :
    AgentsPy.diagnosis_condition msg = true ↔
      ∃ kw ∈ AgentsPy.keywords,
        kw.data <:+: PyStr.lowerChars (AgentsPy.extract_text_from_message msg).data := by
  simp [AgentsPy.diagnosis_condition, List.any_eq_true, containsList_iff]

theorem diagnosis_condition_of_kw (t kw : String) (hk : kw ∈ AgentsPy.keywords)
    (h : kw.data <:+: PyStr.lowerChars t.data) :
    AgentsPy.diagnosis_condition (AgentsPy.mkTextMsg t) = true := by
  by_cases ht : t = ""
  · subst ht
    fin_cases hk <;> simp_all [PyStr.lowerChars, List.infix_nil]
  · exact (diagnosis_condition_iff _).mpr
      ⟨kw, hk, by rwa [extract_text_mkTextMsg, if_neg ht]⟩

/-- C1: `diagnosis_condition` returns true iff the text extracted from the
message contains, case-insensitively, one of the keywords "critical",
"warning", "high", "alert"; it is false on "status: ok", true on
"CRITICAL failure", and true on any error-conversion message (of either
A2A executor) whose text contains a keyword. -/
theorem C1_diagnosis_condition_keyword_match :
    (∀ msg, AgentsPy.diagnosis_condition msg = true ↔
        ∃ kw ∈ AgentsPy.keywords,
          kw.data <:+: PyStr.lowerChars (AgentsPy.extract_text_from_message msg).data) ∧
    AgentsPy.diagnosis_condition (AgentsPy.mkTextMsg "status: ok") = false ∧
    AgentsPy.diagnosis_condition (AgentsPy.mkTextMsg "CRITICAL failure") = true ∧
    (∀ e kw, kw ∈ AgentsPy.keywords →
        kw.data <:+: PyStr.lowerChars (AgentsPy.maintenanceErrorText e).data →
        AgentsPy.diagnosis_condition
          (AgentsPy.mkTextMsg (AgentsPy.maintenanceErrorText e)) = true) ∧
    (∀ e kw, kw ∈ AgentsPy.keywords →
        kw.data <:+: PyStr.lowerChars (AgentsPy.partsErrorText e).data →
        AgentsPy.diagnosis_condition
          (AgentsPy.mkTextMsg (AgentsPy.partsErrorText e)) = true) :=
  ⟨diagnosis_condition_iff, by decide, by decide,
   fun e kw hk h => diagnosis_condition_of_kw _ kw hk h,
   fun e kw hk h => diagnosis_condition_of_kw _ kw hk h⟩

/-- Witness for C1: a concrete error-conversion message containing
"critical" activates the diagnosis branch. -/
theorem C1_diagnosis_condition_keyword_match_witness :
    AgentsPy.diagnosis_condition
      (AgentsPy.mkTextMsg (AgentsPy.maintenanceErrorText "CRITICAL sensor fault")) = true :=
  C1_diagnosis_condition_keyword_match.2.2.2.1 "CRITICAL sensor fault" "critical"
    (by decide) (by decide)

theorem maintenanceRespText_error (env : AgentsPy.ExecEnv) (msg : Option AgentsPy.A2AMessage)
    (pipeline : String → Except String String) (e : String) (henv : env.allSet = true)
    (hp : pipeline (AgentsPy.resolveWorkOrderId (AgentsPy.extractLastPartText msg)) = .error e) :
    AgentsPy.maintenanceRespText env msg pipeline = AgentsPy.maintenanceErrorText e := by
  simp [AgentsPy.maintenanceRespText, henv, hp]

theorem partsRespText_error (env : AgentsPy.ExecEnv) (msg : Option AgentsPy.A2AMessage)
    (pipeline : String → Except String String) (e : String) (henv : env.allSet = true)
    (hp : pipeline (AgentsPy.resolveWorkOrderId (AgentsPy.extractLastPartText msg)) = .error e) :
    AgentsPy.partsRespText env msg pipeline = AgentsPy.partsErrorText e := by
  simp [AgentsPy.partsRespText, henv, hp]

theorem errorMarker_le_maintenance (e : String) :
    "Error processing".data <+: (AgentsPy.maintenanceErrorText e).data := by
  rw [AgentsPy.maintenanceErrorText, String.data_append]
  exact List.IsPrefix.trans (by decide) (List.prefix_append _ _)

theorem errorMarker_le_parts (e : String) :
    "Error processing".data <+: (AgentsPy.partsErrorText e).data := by
  rw [AgentsPy.partsErrorText, String.data_append]
  exact List.IsPrefix.trans (by decide) (List.prefix_append _ _)

/-- C2: if the wrapped pipeline of an A2A executor raises, `execute` does
not propagate the exception (it still returns normally) and it enqueues
one response message whose text starts with "Error processing" followed by
a description of the failure; this holds for both executors. -/
theorem C2_executor_error_conversion (env : AgentsPy.ExecEnv)
    (msg : Option AgentsPy.A2AMessage) (pipeline : String → Except String String)
    (e fid : String) (henv : env.allSet = true)
    (hp : pipeline (AgentsPy.resolveWorkOrderId (AgentsPy.extractLastPartText msg)) = .error e) :
    (∃ t, AgentsPy.maintenanceExecute env msg pipeline fid =
        .ok [⟨fid, "agent", [⟨some t⟩]⟩] ∧ "Error processing".data <+: t.data) ∧
    (∃ t, AgentsPy.partsExecute env msg pipeline fid =
        .ok [⟨fid, "agent", [⟨some t⟩]⟩] ∧ "Error processing".data <+: t.data) := by
  refine ⟨⟨AgentsPy.maintenanceErrorText e, ?_, errorMarker_le_maintenance e⟩,
    ⟨AgentsPy.partsErrorText e, ?_, errorMarker_le_parts e⟩⟩
  · rw [AgentsPy.maintenanceExecute, maintenanceRespText_error env msg pipeline e henv hp]
  · rw [AgentsPy.partsExecute, partsRespText_error env msg pipeline e henv hp]

/-- Witness for C2: a concrete failing pipeline is converted, not
propagated, by both executors. -/
theorem C2_executor_error_conversion_witness :
    (∃ t, AgentsPy.maintenanceExecute ⟨some "ce", some "ck", some "db", some "pe"⟩ none
        (fun _ => .error "boom") "uuid-1" =
        .ok [⟨"uuid-1", "agent", [⟨some t⟩]⟩] ∧ "Error processing".data <+: t.data) ∧
    (∃ t, AgentsPy.partsExecute ⟨some "ce", some "ck", some "db", some "pe"⟩ none
        (fun _ => .error "boom") "uuid-1" =
        .ok [⟨"uuid-1", "agent", [⟨some t⟩]⟩] ∧ "Error processing".data <+: t.data) :=
  C2_executor_error_conversion ⟨some "ce", some "ck", some "db", some "pe"⟩ none
    (fun _ => .error "boom") "boom" "uuid-1" (by decide) rfl

/-- C3: on every input (success or error path alike) each executor returns
normally and enqueues exactly one message, carrying the invocation's
freshly generated message id, role "agent", and exactly one text part. -/
theorem C3_executor_single_response (env : AgentsPy.ExecEnv)
    (msg : Option AgentsPy.A2AMessage) (pipeline : String → Except String String)
    (fid : String) :
    (∃ t, AgentsPy.maintenanceExecute env msg pipeline fid = .ok [⟨fid, "agent", [⟨some t⟩]⟩]) ∧
    (∃ t, AgentsPy.partsExecute env msg pipeline fid = .ok [⟨fid, "agent", [⟨some t⟩]⟩]) :=
  ⟨⟨AgentsPy.maintenanceRespText env msg pipeline, rfl⟩,
   ⟨AgentsPy.partsRespText env msg pipeline, rfl⟩⟩

theorem findSome?_reverse_eq_getLast? {α β : Type} (f : α → Option β) (l : List α) :
    l.reverse.findSome? f = (l.filterMap f).getLast? := by
  induction l with
  | nil => rfl
  | cons a as ih =>
      rw [List.reverse_cons, List.findSome?_append, ih, List.filterMap_cons]
      cases h : f a with
      | none => simp [List.findSome?_cons, h]
      | some b =>
          rw [show List.findSome? f [a] = some b by simp [List.findSome?_cons, h]]
          rw [List.getLast?_cons]
          cases hl : (List.filterMap f as).getLast? with
          | none => simp [hl]
          | some c => simp [hl]

theorem extractLastPartText_eq_getLast (i r : String) (parts : List AgentsPy.A2APart) :
    AgentsPy.extractLastPartText (some ⟨i, r, parts⟩) =
      ((parts.filterMap AgentsPy.A2APart.rootText).getLast?).getD "" := by
  rw [AgentsPy.extractLastPartText, findSome?_reverse_eq_getLast?]

/-- C4: the canonical input text is the text of the LAST part carrying
text — the executors iterate the parts in reverse and stop at the first
part that has text; equivalently, the extraction equals the last element
of the parts' text projections. -/
theorem C4_extract_last_text_part :
    (∀ (i r : String) (parts : List AgentsPy.A2APart),
        AgentsPy.extractLastPartText (some ⟨i, r, parts⟩) =
          ((parts.filterMap AgentsPy.A2APart.rootText).getLast?).getD "") ∧
    (∀ (i r t : String) (ps₁ ps₂ : List AgentsPy.A2APart),
        (∀ p ∈ ps₂, p.rootText = none) →
        AgentsPy.extractLastPartText (some ⟨i, r, ps₁ ++ ⟨some t⟩ :: ps₂⟩) = t) := by
  refine ⟨extractLastPartText_eq_getLast, fun i r t ps₁ ps₂ h => ?_⟩
  rw [extractLastPartText_eq_getLast, List.filterMap_append, List.filterMap_cons]
  have h2 : ps₂.filterMap AgentsPy.A2APart.rootText = [] := by
    rw [List.filterMap_eq_nil_iff]; exact h
  simp [h2, List.getLast?_concat]

/-- Witness for C4: a message with an earlier text part "first" and a
later text part "last" (followed by a non-text part) extracts "last". -/
theorem C4_extract_last_text_part_witness :
    AgentsPy.extractLastPartText
      (some ⟨"mid", "user", [⟨some "first"⟩, ⟨none⟩] ++ ⟨some "last"⟩ :: [⟨none⟩]⟩) = "last" :=
  C4_extract_last_text_part.2 "mid" "user" "last" [⟨some "first"⟩, ⟨none⟩] [⟨none⟩]
    (by intro p hp; fin_cases hp; rfl)

/-- C9: after every save, the persisted chat history holds at most 10
messages and ends with the just-added user prompt and assistant response,
in that order (older messages are dropped from the front). -/
theorem C9_history_bounded (existing : List MaintPy.ChatMsg) (u a : String) :
    (MaintPy.save_interaction_history existing u a).length ≤ 10 ∧
    ∃ rest, MaintPy.save_interaction_history existing u a =
      rest ++ [⟨"user", u⟩, ⟨"assistant", a⟩] := by
  constructor
  · rw [MaintPy.save_interaction_history, MaintPy.pyLastN, List.length_drop]
    omega
  · refine ⟨existing.drop (existing.length + 2 - 10), ?_⟩
    rw [MaintPy.save_interaction_history, MaintPy.pyLastN]
    have hlen : (existing ++ [⟨"user", u⟩, ⟨"assistant", a⟩] : List MaintPy.ChatMsg).length
        = existing.length + 2 := by simp
    rw [hlen]
    exact List.drop_append_of_le_length (by omega)

theorem filter_eq_single_decomp {α : Type} (p : α → Bool) (l : List α) (a : α)
    (h : l.filter p = [a]) :
    ∃ l₁ l₂, l = l₁ ++ a :: l₂ ∧ (∀ x ∈ l₁, p x = false) ∧ (∀ x ∈ l₂, p x = false) ∧
      p a = true := by
  induction l with
  | nil => simp at h
  | cons b bs ih =>
      rw [List.filter_cons] at h
      by_cases hb : p b = true
      · rw [if_pos hb] at h
        obtain ⟨hba, hbs⟩ : b = a ∧ bs.filter p = [] := by
          constructor
          · exact (List.cons_eq_cons.mp h).1
          · exact (List.cons_eq_cons.mp h).2
        subst hba
        refine ⟨[], bs, rfl, by simp, ?_, hb⟩
        intro x hx
        have := List.filter_eq_nil_iff.mp hbs x hx
        simpa using this
      · rw [if_neg hb] at h
        obtain ⟨l₁, l₂, hl, h1, h2, ha⟩ := ih h
        exact ⟨b :: l₁, l₂, by rw [hl]; rfl,
          by intro x hx; rcases List.mem_cons.mp hx with hx | hx
             · subst hx; simpa using hb
             · exact h1 x hx,
          h2, ha⟩

theorem toRequiredPart_roundtrip (ps : List CosmosPy.RequiredPartItem) :
    (ps.map CosmosPy.toRequiredPart).map
      (fun p => (⟨p.part_number, p.part_name, p.quantity, p.is_available⟩ :
        CosmosPy.RequiredPartItem)) = ps := by
  induction ps with
  | nil => rfl
  | cons q qs ih => cases q; simp [CosmosPy.toRequiredPart, ih]

/-- C10: `update_work_order_status` changes only the status — when the
store holds exactly one item with the given id, the call succeeds and the
stored item for that id afterwards has the new status while every other
field equals its previous value. -/
theorem C10_update_status_frame (store : CosmosPy.Store) (wid st : String)
    (it : CosmosPy.WorkOrderItem)
    (h : store.filter (fun x => x.id == wid) = [it]) :
    ∃ store', CosmosPy.update_work_order_status store wid st = .ok store' ∧
      ∃ it', store'.find? (fun x => x.id == wid) = some it' ∧
        it'.status = st ∧ it'.id = it.id ∧ it'.machineId = it.machineId ∧
        it'.faultType = it.faultType ∧ it'.priority = it.priority ∧
        it'.assignedTechnician = it.assignedTechnician ∧
        it'.requiredParts = it.requiredParts ∧
        it'.estimatedDuration = it.estimatedDuration ∧
        it'.createdAt = it.createdAt := by
  obtain ⟨l₁, l₂, hl, h1, h2, hit⟩ := filter_eq_single_decomp _ store it h
  have hid : it.id = wid := by simpa using hit
  have hfind1 : List.find? (fun x => x.id == wid) l₁ = none :=
    List.find?_eq_none.mpr (by intro x hx; simp [h1 x hx])
  have hfind : store.find? (fun x => x.id == wid) = some it := by
    rw [hl, List.find?_append, hfind1, Option.none_or]
    exact List.find?_cons_of_pos _ hit
  have hget : CosmosPy.get_work_order store wid = .ok (CosmosPy.toWorkOrder it) := by
    rw [CosmosPy.get_work_order, hfind]
  set newItem := CosmosPy.itemOfWorkOrder (CosmosPy.toWorkOrder it) st with hnew
  have hdel : CosmosPy.deleteItem store wid it.status = l₁ ++ l₂ := by
    rw [CosmosPy.deleteItem, hl,
      List.eraseP_append_right _ (by intro b hb; simp [h1 b hb]),
      List.eraseP_cons_of_pos (by simp [hit])]
  have hnid : newItem.id = it.id := rfl
  have hnst : newItem.status = st := rfl
  have hany : ((l₁ ++ l₂).any
      (fun x => x.id == newItem.id && x.status == newItem.status)) = false := by
    rw [List.any_eq_false]
    intro x hx
    have hxid : (x.id == wid) = false := by
      rcases List.mem_append.mp hx with hx | hx
      · exact h1 x hx
      · exact h2 x hx
    simp [hnid, hid, hxid]
  have hupsert : CosmosPy.upsertItem (l₁ ++ l₂) newItem = (l₁ ++ l₂) ++ [newItem] := by
    rw [CosmosPy.upsertItem, if_neg]
    simp [hany]
  have hupd : CosmosPy.update_work_order_status store wid st =
      .ok ((l₁ ++ l₂) ++ [newItem]) := by
    rw [CosmosPy.update_work_order_status]
    simp only [hget, bind, Except.bind]
    rw [show (CosmosPy.toWorkOrder it).status = it.status from rfl, hdel, hupsert]
    rfl
  refine ⟨(l₁ ++ l₂) ++ [newItem], hupd, newItem, ?_, hnst, hnid, rfl, rfl, rfl, rfl,
    toRequiredPart_roundtrip it.requiredParts, rfl, rfl⟩
  rw [List.find?_append, List.find?_append, hfind1, List.find?_eq_none.mpr
    (by intro x hx; simp [h2 x hx]), Option.none_or, Option.none_or]
  exact List.find?_cons_of_pos _ (by simp [hnid, hid])

/-- Witness for C10: updating the sample stored work order to "Ready"
keeps every field but the status. -/
theorem C10_update_status_frame_witness :
    ∃ store', CosmosPy.update_work_order_status [CosmosPy.sampleItem] "wo-2024-468" "Ready" =
        .ok store' ∧
      ∃ it', store'.find? (fun x => x.id == "wo-2024-468") = some it' ∧
        it'.status = "Ready" ∧ it'.id = CosmosPy.sampleItem.id ∧
        it'.machineId = CosmosPy.sampleItem.machineId ∧
        it'.faultType = CosmosPy.sampleItem.faultType ∧
        it'.priority = CosmosPy.sampleItem.priority ∧
        it'.assignedTechnician = CosmosPy.sampleItem.assignedTechnician ∧
        it'.requiredParts = CosmosPy.sampleItem.requiredParts ∧
        it'.estimatedDuration = CosmosPy.sampleItem.estimatedDuration ∧
        it'.createdAt = CosmosPy.sampleItem.createdAt :=
  C10_update_status_frame [CosmosPy.sampleItem] "wo-2024-468" "Ready" CosmosPy.sampleItem
    (by decide)

theorem matchAt_sound (l m : List Char) (h : AgentsPy.matchAt l = some m) :
    m <+: l ∧ AgentsPy.matchesWO m = true := by
  unfold AgentsPy.matchAt at h
  split at h
  case _ c0 c1 c2 c3 c4 c5 c6 c7 rest =>
    split at h
    case isTrue hhdr =>
      cases htw : rest.takeWhile AgentsPy.isHexC with
      | nil => rw [htw] at h; simp at h
      | cons x xs =>
          rw [htw] at h
          have hm : m = c0 :: c1 :: c2 :: c3 :: c4 :: c5 :: c6 :: c7 :: x :: xs := by
            simpa using h.symm
          subst hm
          constructor
          · have hpre : (x :: xs) <+: rest := htw ▸ List.takeWhile_prefix _
            obtain ⟨t, ht⟩ := hpre
            exact ⟨t, by simp [← ht]⟩
          · have hall : (x :: xs).all AgentsPy.isHexC = true := by
              rw [← htw]; exact List.all_takeWhile
            simp [AgentsPy.matchesWO, hhdr, hall]
    case isFalse => simp at h
  case _ => simp at h

theorem matchAt_complete (s l : List Char) (hm : AgentsPy.matchesWO s = true)
    (hp : s <+: l) : ∃ m, AgentsPy.matchAt l = some m := by
  unfold AgentsPy.matchesWO at hm
  split at hm
  case _ c0 c1 c2 c3 c4 c5 c6 c7 rest =>
    simp only [Bool.and_eq_true] at hm
    obtain ⟨⟨hhdr, hne⟩, hall⟩ := hm
    cases rest with
    | nil => simp at hne
    | cons r rs =>
        obtain ⟨t, ht⟩ := hp
        have hr : AgentsPy.isHexC r = true := by
          simp [List.all_cons] at hall; exact hall.1
        refine ⟨[c0, c1, c2, c3, c4, c5, c6, c7] ++
          (r :: (rs ++ t).takeWhile AgentsPy.isHexC), ?_⟩
        rw [← ht]
        have hred : AgentsPy.matchAt
            (c0 :: c1 :: c2 :: c3 :: c4 :: c5 :: c6 :: c7 :: r :: (rs ++ t)) =
            (if AgentsPy.woHeaderOk c0 c1 c2 c3 c4 c5 c6 c7 then
              match (r :: (rs ++ t)).takeWhile AgentsPy.isHexC with
              | [] => none
              | h :: hs => some ([c0, c1, c2, c3, c4, c5, c6, c7] ++ (h :: hs))
            else none) := rfl
        simp only [List.cons_append]
        rw [hred, if_pos hhdr, List.takeWhile_cons_of_pos hr]
        simp
  case _ => simp at hm

theorem extract_sound_leftmost (l m : List Char)
    (h : AgentsPy.extract_work_order_id l = some m) :
    ∃ pre post, l = pre ++ m ++ post ∧ AgentsPy.matchesWO m = true ∧
      ∀ s pre' post', AgentsPy.matchesWO s = true → l = pre' ++ s ++ post' →
        pre.length ≤ pre'.length := by
  induction l with
  | nil => simp [AgentsPy.extract_work_order_id] at h
  | cons c cs ih =>
      rw [AgentsPy.extract_work_order_id] at h
      cases hma : AgentsPy.matchAt (c :: cs) with
      | some m0 =>
          rw [hma] at h
          have hm : m = m0 := by simpa using h.symm
          subst hm
          obtain ⟨hpre, hwo⟩ := matchAt_sound _ _ hma
          obtain ⟨t, ht⟩ := hpre
          refine ⟨[], t, by simp [← ht], hwo, ?_⟩
          intro s pre' post' _ _
          simp
      | none =>
          rw [hma] at h
          obtain ⟨pre, post, hl, hwo, hleft⟩ := ih h
          refine ⟨c :: pre, post, by simp [hl], hwo, ?_⟩
          intro s pre' post' hs hl'
          cases pre' with
          | nil =>
              exfalso
              obtain ⟨m', hm'⟩ := matchAt_complete s (c :: cs) hs
                ⟨post', by simpa using hl'.symm⟩
              rw [hma] at hm'
              cases hm'
          | cons c' pre'' =>
              have hcs : cs = pre'' ++ s ++ post' := by
                have := hl'
                simp only [List.cons_append, List.cons.injEq] at this
                exact this.2
              have := hleft s pre'' post' hs hcs
              simpa using Nat.succ_le_succ this

theorem extract_complete (s : List Char) (hs : AgentsPy.matchesWO s = true) :
    ∀ pre post l, l = pre ++ s ++ post →
      (AgentsPy.extract_work_order_id l).isSome = true := by
  intro pre
  induction pre with
  | nil =>
      intro post l hl
      obtain ⟨m, hm⟩ := matchAt_complete s l hs ⟨post, by simp [hl]⟩
      cases l with
      | nil => simp [AgentsPy.matchAt] at hm
      | cons c cs =>
          rw [AgentsPy.extract_work_order_id, hm]
          rfl
  | cons c pre' ih =>
      intro post l hl
      subst hl
      simp only [List.cons_append]
      rw [AgentsPy.extract_work_order_id]
      cases hma : AgentsPy.matchAt (c :: (pre' ++ s ++ post)) with
      | some m => simp
      | none => exact ih post (pre' ++ s ++ post) rfl

/-- C8: `extract_work_order_id` returns the first (leftmost, greedy)
substring matching `wo-<4 digits>-<hex digits>` case-insensitively, or
`None` when no substring of the text matches; when it returns `None` or
the input text is empty, the executors fall back to the default work order
id "wo-2024-468" instead of rejecting the request. -/
theorem C8_work_order_id_extraction :
    (∀ l m, AgentsPy.extract_work_order_id l = some m →
        ∃ pre post, l = pre ++ m ++ post ∧ AgentsPy.matchesWO m = true ∧
          ∀ s pre' post', AgentsPy.matchesWO s = true → l = pre' ++ s ++ post' →
            pre.length ≤ pre'.length) ∧
    (∀ l, AgentsPy.extract_work_order_id l = none →
        ∀ s pre post, l = pre ++ s ++ post → AgentsPy.matchesWO s = false) ∧
    (∀ t : String, (t = "" ∨ AgentsPy.extract_work_order_id t.data = none) →
        AgentsPy.resolveWorkOrderId t = "wo-2024-468") ∧
    (∀ (t : String) m, t ≠ "" → AgentsPy.extract_work_order_id t.data = some m →
        AgentsPy.resolveWorkOrderId t = String.mk m) ∧
    AgentsPy.maintenanceExecute ⟨some "ce", some "ck", some "db", some "pe"⟩
      (some ⟨"mid", "user", [⟨some "no work order id in this text"⟩]⟩)
      (fun wid => .ok wid) "uuid-1" =
      .ok [⟨"uuid-1", "agent", [⟨some "wo-2024-468"⟩]⟩] ∧
    AgentsPy.partsExecute ⟨some "ce", some "ck", some "db", some "pe"⟩
      (some ⟨"mid", "user", [⟨some "no work order id in this text"⟩]⟩)
      (fun wid => .ok wid) "uuid-1" =
      .ok [⟨"uuid-1", "agent", [⟨some "wo-2024-468"⟩]⟩] := by
  refine ⟨extract_sound_leftmost, ?_, ?_, ?_, rfl, rfl⟩
  · intro l hnone s pre post hl
    by_contra hs
    have hs' : AgentsPy.matchesWO s = true := by
      cases hmw : AgentsPy.matchesWO s
      · exact absurd hmw hs
      · rfl
    have := extract_complete s hs' pre post l hl
    rw [hnone] at this
    cases this
  · intro t ht
    rcases ht with ht | ht
    · subst ht; rfl
    · rw [AgentsPy.resolveWorkOrderId]
      by_cases he : t = ""
      · simp [he]
      · simp [he, ht]
  · intro t m ht hm
    obtain ⟨pre, post, _, hwo, _⟩ := extract_sound_leftmost _ _ hm
    have hmne : m ≠ [] := by
      intro hnil; rw [hnil] at hwo; simp [AgentsPy.matchesWO] at hwo
    have hempty : (String.mk m).isEmpty = false := by
      cases hie : (String.mk m).isEmpty
      · rfl
      · exfalso
        have h2 := (String.isEmpty_iff _).mp hie
        have h3 : (String.mk m).data = ("" : String).data := by rw [h2]
        exact hmne (by simpa using h3)
    simp [AgentsPy.resolveWorkOrderId, ht, hm, hempty]
    intro hnil
    exact absurd hnil hmne

/-- Witness for C8: the empty input and an input with no id both resolve
to the default; an input containing "wo-2024-ff01" resolves to it. -/
theorem C8_work_order_id_extraction_witness :
    AgentsPy.resolveWorkOrderId "" = "wo-2024-468" ∧
    AgentsPy.resolveWorkOrderId "please expedite wo-2024-ff01 today" =
      String.mk "wo-2024-ff01".data :=
  ⟨C8_work_order_id_extraction.2.2.1 "" (Or.inl rfl),
   C8_work_order_id_extraction.2.2.2.1 "please expedite wo-2024-ff01 today"
     "wo-2024-ff01".data (by decide) (by decide)⟩

theorem danglingIds_eq (b : WF.Builder) :
    b.danglingIds = ((b.edgeIds.map Prod.fst) ++ (b.edgeIds.map Prod.snd)).filter
      (fun n => !b.names.contains n) := by
  rw [WF.Builder.danglingIds, WF.Builder.edgeIds]
  simp [List.map_map, Function.comp_def]

theorem buildError_congr (b₁ b₂ : WF.Builder) (hn : b₁.names = b₂.names)
    (he : b₁.edgeIds = b₂.edgeIds) (hs : b₁.starts = b₂.starts) :
    b₁.buildError = b₂.buildError := by
  rw [WF.Builder.buildError, WF.Builder.buildError, WF.Builder.build, WF.Builder.build,
    danglingIds_eq, danglingIds_eq, hn, he, hs]
  by_cases hd : ((b₂.edgeIds.map Prod.fst) ++ (b₂.edgeIds.map Prod.snd)).filter
      (fun n => !b₂.names.contains n) ≠ []
  · rw [if_pos hd, if_pos hd]
  · rw [if_neg hd, if_neg hd]
    cases b₂.starts with
    | nil => rfl
    | cons s ss =>
        cases ss with
        | nil =>
            by_cases hc : s ∈ b₂.names
            · simp [hc]
            · simp [hc]
        | cons s' ss' => rfl

theorem dangling_build_error (b : WF.Builder)
    (h : ∃ e ∈ b.edges, b.names.contains e.src = false ∨ b.names.contains e.tgt = false) :
    ∃ ids, b.build = .error (WF.GraphError.missingNodes ids) ∧ ids ≠ [] := by
  obtain ⟨e, he, hbad⟩ := h
  have hne : b.danglingIds ≠ [] := by
    have hmem : ∃ n, n ∈ b.danglingIds := by
      rcases hbad with hb | hb
      · exact ⟨e.src, List.mem_filter.mpr
          ⟨List.mem_append.mpr (Or.inl (List.mem_map.mpr ⟨e, he, rfl⟩)), by simpa using hb⟩⟩
      · exact ⟨e.tgt, List.mem_filter.mpr
          ⟨List.mem_append.mpr (Or.inr (List.mem_map.mpr ⟨e, he, rfl⟩)), by simpa using hb⟩⟩
    obtain ⟨n, hn⟩ := hmem
    intro hnil
    rw [hnil] at hn
    cases hn
  refine ⟨b.danglingIds, ?_, hne⟩
  rw [WF.Builder.build, if_pos hne]

/-- C6: graph construction is validated before execution — an edge
referencing an unregistered node id makes `build()` fail with a
missing-node `GraphError`, and validation reads only node names, edge id
pairs and start designations: it never calls an executor (and, the model
being pure, performs no I/O). -/
theorem C6_build_validation :
    (∀ b : WF.Builder,
        (∃ e ∈ b.edges, b.names.contains e.src = false ∨ b.names.contains e.tgt = false) →
        ∃ ids, b.build = .error (WF.GraphError.missingNodes ids) ∧ ids ≠ []) ∧
    (∀ b₁ b₂ : WF.Builder, b₁.names = b₂.names → b₁.edgeIds = b₂.edgeIds →
        b₁.starts = b₂.starts → b₁.buildError = b₂.buildError) :=
  ⟨dangling_build_error, buildError_congr⟩

/-- Witness for C6: a builder with one node "A" and a dangling edge
`A → B` fails to build with a missing-node error. -/
theorem C6_build_validation_witness :
    ∃ ids, (((WF.Builder.empty.register "A" (fun s => s)).addEdge "A" "B" none).setStart
        "A").build = .error (WF.GraphError.missingNodes ids) ∧ ids ≠ [] :=
  C6_build_validation.1 _ ⟨⟨"A", "B", none⟩, List.mem_singleton_self _, Or.inr rfl⟩

theorem runLoop_map_fst (fuel : Nat) (g : WF.Graph) :
    ∀ q outs, (WF.runLoop fuel g q outs).map Prod.fst =
      outs.map Prod.fst ++ WF.invocationLoop fuel g q := by
  induction fuel with
  | zero => intro q outs; simp [WF.runLoop, WF.invocationLoop]
  | succ fuel ih =>
      intro q outs
      cases q with
      | nil => simp [WF.runLoop, WF.invocationLoop]
      | cons p rest =>
          cases p with
          | mk n m =>
              rw [WF.runLoop, WF.invocationLoop, ih]
              simp

/-- C5 (amended): the runtime returns outputs exactly in the order nodes
were invoked (breadth order of the work queue); this order need not
coincide with edge-registration order of the terminal outputs. -/
theorem C5_outputs_in_invocation_order (g : WF.Graph) (m : String) (fuel : Nat) :
    (g.run m fuel).map Prod.fst = g.invocationOrder m fuel := by
  rw [WF.Graph.run, WF.Graph.invocationOrder, runLoop_map_fst]
  rfl

/-- Counterexample for C5 as stated: on `cexGraph` (edges registered as
`A→C, S→A, S→B`) the run returns the terminal outputs in first-invocation
order `B, C`, while the first edge targeting `C` is registered at index 0
and the first edge targeting `B` at index 2 — edge-registration order
would put `C` first, so the two orders differ on this run. -/
theorem C5_orders_differ_counterexample :
    ((WF.cexGraph.run "m" 10).map Prod.fst = ["S", "A", "B", "C"]) ∧
    ((WF.cexGraph.terminalOutputs (WF.cexGraph.run "m" 10)).map Prod.fst = ["B", "C"]) ∧
    WF.cexGraph.firstEdgeIdxTargeting "C" = some 0 ∧
    WF.cexGraph.firstEdgeIdxTargeting "B" = some 2 :=
  ⟨rfl, rfl, rfl, rfl⟩

/-- C7: remote-agent discovery resolves the card at
`<url>/.well-known/agent-card.json`; on success the constructed agent's
name equals the fetched card's name; discovery failure, a missing package,
or an unusable package constructor makes `get_a2a_agent` raise, and in
`run_factory_workflow` that error surfaces before the graph is built and
before any node invocation (the result is this error for every node
behaviour and carries no outputs). -/
theorem C7_discovery_before_build :
    (∀ (fetch : String → Except String AgentsPy.AgentCard) url card,
        fetch (url ++ ".well-known/agent-card.json") = .ok card →
        AgentsPy.get_a2a_agent .hasResolver fetch url =
          .ok ⟨some card.name, some card.description, some card, url⟩) ∧
    (∀ fetch url e, fetch (url ++ ".well-known/agent-card.json") = .error e →
        AgentsPy.get_a2a_agent .hasResolver fetch url = .error e) ∧
    (∀ fetch url, ∃ e, AgentsPy.get_a2a_agent .missing fetch url = .error e) ∧
    (∀ fetch url, ∃ e, AgentsPy.get_a2a_agent (.noResolver false false) fetch url = .error e) ∧
    (∀ ep v url pkg fetch e (anomalyFn faultFn repairFn : String → String) mid tel fuel,
        PyStr.pyTruthy? ep = some v →
        AgentsPy.get_a2a_agent pkg fetch url = .error e →
        AgentsPy.run_factory_workflow ep (some url) pkg fetch anomalyFn faultFn repairFn
          mid tel fuel = .error e) := by
  refine ⟨?_, ?_, fun fetch url => ⟨_, rfl⟩, fun fetch url => ⟨_, rfl⟩, ?_⟩
  · intro fetch url card h
    simp [AgentsPy.get_a2a_agent, h]
  · intro fetch url e h
    simp [AgentsPy.get_a2a_agent, h]
  · intro ep v url pkg fetch e anomalyFn faultFn repairFn mid tel fuel h1 h2
    rw [AgentsPy.run_factory_workflow]
    simp [AgentsPy.require_env, h1, h2, bind, Except.bind]

/-- Witness for C7: a 404-style discovery failure aborts the concrete
workflow run with that error. -/
theorem C7_discovery_before_build_witness :
    AgentsPy.run_factory_workflow (some "https://proj") (some "https://rp/") .hasResolver
      (fun _ => .error "DiscoveryError: 404") (fun s => s) (fun s => s) (fun s => s)
      "machine-007" "[210]" 10 = .error "DiscoveryError: 404" :=
  C7_discovery_before_build.2.2.2.2 (some "https://proj") "https://proj" "https://rp/"
    .hasResolver (fun _ => .error "DiscoveryError: 404") "DiscoveryError: 404"
    (fun s => s) (fun s => s) (fun s => s) "machine-007" "[210]" 10 rfl rfl
